import Mathlib

/-!
Shallow embedding of the protein-protein interaction app
(`ppi_basedata.py`, `ppi_dataapp.py`, `ppi_nonetwork.py`).

The three scripts share a common core, embedded here:
* `load_data` — the cached CSV loader with its try/except fallback
  (ppi_basedata.py lines 14-22, identical in the other two files);
* the Data / Visualization page filter: strip the two text inputs, apply
  the single-protein filter when the single input is non-empty, then apply
  the multi-protein filter over the *full* dataframe when the multi input
  is non-empty (ppi_basedata.py lines 51-59 and 72-80, ppi_dataapp.py
  lines 71-83 and 99-111, ppi_nonetwork.py lines 50-58 and 71-79);
* the bar-chart score colors (ppi_basedata.py lines 91-94,
  ppi_nonetwork.py lines 90-93);
* the networkx graph build loop of ppi_basedata.py (lines 106-111), which
  stores `distance = 1.0/score` with a `1.0` fallback for non-positive
  scores (`edgeRecordOfRow`, `buildGraph`);
* the different build loop of ppi_dataapp.py (lines 117-119), which
  stores the row's raw score as the edge weight, with no `1/score`
  computation and no fallback (`appWeight`, `buildGraphApp`);
* the `spring_layout` calls with their fixed seed (ppi_basedata.py
  line 113, ppi_dataapp.py line 138).

Pandas dataframes of interaction rows are embedded as ordered lists of
`Row`; boolean-mask filtering (`df[mask]`) is `List.filter`, which keeps
exactly the rows satisfying the mask, unmodified and in order, matching
pandas semantics. Python float scores are embedded as `ℚ` (the score
arithmetic used by the code — comparison with 0, 0.7, 0.9 and one
division — is exact). A missing `combined_score` is `none`, matching
`row.get("combined_score", 1)`. The networkx `Graph` is embedded as a
node list plus an association list keyed by the canonical unordered pair,
with `add_edge` upserting the record for an existing key in place
(networkx keeps one attribute record per unordered pair and overwrites it
on repeated `add_edge`, self-loops allowed).
-/

namespace PPI

/-- Python's `str.isspace` on one character: the ASCII whitespace
characters stripped by `str.strip()` (space, tab, newline, carriage
return, vertical tab, form feed). -/
def pyIsSpace (c : Char) : Bool :=
  c = ' ' || c = '\t' || c = '\n' || c = '\r' || c.val = 11 || c.val = 12

/-- Python's `s.strip()`: remove leading and trailing whitespace. -/
def pyStrip (s : String) : String :=
  ⟨((s.data.dropWhile pyIsSpace).reverse.dropWhile pyIsSpace).reverse⟩

/-- Splitting a character list on the comma separator, Python
`split(",")` semantics: the empty input gives one empty field, and each
comma starts a new field, so adjacent commas give empty fields. -/
def splitChars : List Char → List (List Char)
  | [] => [[]]
  | c :: rest =>
    let r := splitChars rest
    if c = ',' then [] :: r
    else
      match r with
      | [] => [[c]]
      | h :: t => (c :: h) :: t

/-- Python's `s.split(",")`. -/
def pySplitComma (s : String) : List String :=
  (splitChars s.data).map (fun l => ⟨l⟩)

/-- One interaction row of the dataframe: the `Protein_A` and `Protein_B`
columns and the `combined_score` column (`none` when the column value is
missing, as in `row.get("combined_score", 1)`). -/
structure Row where
  proteinA : String
  proteinB : String
  score : Option ℚ
deriving DecidableEq, Repr

/-- A dataframe: trimmed column names plus the ordered interaction rows.
`pd.DataFrame()` is `emptyFrame`. -/
structure Frame where
  columns : List String
  rows : List Row
deriving DecidableEq, Repr

/-- The empty dataframe `pd.DataFrame()` returned on load failure. -/
def emptyFrame : Frame := ⟨[], []⟩

/-- `load_data` (ppi_basedata.py lines 14-22): the outcome of
`pd.read_csv` is the `fetch` argument (`Except.error` when fetching or
parsing raises).  On success the column names are stripped and no error
is reported; on failure the function catches the exception, reports the
message `"❌ Error loading data: " ++ e` via `st.error`, and returns the
empty dataframe.  The second component is the reported error, `none` when
nothing was reported. -/
def load_data (fetch : Except String Frame) : Frame × Option String :=
  match fetch with
  | Except.ok df => ({ df with columns := df.columns.map pyStrip }, none)
  | Except.error e => (emptyFrame, some ("❌ Error loading data: " ++ e))

/-- The single-protein filter
`df[(df["Protein_A"] == p) | (df["Protein_B"] == p)]`
(ppi_basedata.py line 56). -/
def singleFilter (df : List Row) (p : String) : List Row :=
  df.filter (fun r => decide (r.proteinA = p ∨ r.proteinB = p))

/-- `[p.strip() for p in multi_proteins.split(",")]`
(ppi_basedata.py line 58): split the raw comma-separated input and trim
each entry.  Entries that are empty after trimming are kept. -/
def parseProteins (s : String) : List String :=
  (pySplitComma s).map pyStrip

/-- The multi-protein filter
`df[df["Protein_A"].isin(protein_list) | df["Protein_B"].isin(protein_list)]`
(ppi_basedata.py line 59): keep the rows with an endpoint in the list. -/
def multiFilter (df : List Row) (S : List String) : List Row :=
  df.filter (fun r => decide (r.proteinA ∈ S ∨ r.proteinB ∈ S))

/-- The Data page filter pipeline (ppi_basedata.py lines 51-59; the
Visualization pages, ppi_basedata.py lines 72-80 and the corresponding
blocks of the other two files, are textually the same filter).  Both text
inputs are stripped; a Python string is truthy exactly when it is
non-empty, so each `if` guard becomes a comparison with `""`.  Note both
filters read `df`, the full dataframe, not `df_filtered`. -/
def dataPage (df : List Row) (singleRaw multiRaw : String) : List Row :=
  let single_protein := pyStrip singleRaw
  let multi_proteins := pyStrip multiRaw
  let df_filtered := df
  let df_filtered :=
    if single_protein ≠ "" then singleFilter df single_protein else df_filtered
  if multi_proteins ≠ "" then
    multiFilter df (parseProteins multi_proteins)
  else df_filtered

/-- The attribute record networkx stores on an edge:
`weight=distance, label=f"{score:.2f}"` (ppi_basedata.py line 111).  The
label only reformats the score, so the record carries the score itself. -/
structure EdgeRecord where
  distance : ℚ
  score : ℚ
deriving DecidableEq, Repr

/-- An unordered protein pair, canonicalised. -/
abbrev Pair := String × String

/-- Lexicographic comparison of character lists by code point, used only
to canonicalise unordered pairs. -/
def charListLe : List Char → List Char → Bool
  | [], _ => true
  | _ :: _, [] => false
  | a :: as, b :: bs =>
    if a.val < b.val then true
    else if b.val < a.val then false
    else charListLe as bs

/-- Lexicographic string comparison by code point. -/
def strLe (a b : String) : Bool :=
  charListLe a.data b.data

/-- The canonical key of the unordered pair `{a, b}` of an
`nx.Graph` edge: the two endpoints, smaller first (for `a = b` this is
the self-loop key `(a, a)`, which `nx.Graph.add_edge` accepts). -/
def pairKey (a b : String) : Pair :=
  if strLe a b then (a, b) else (b, a)

/-- Upsert into the edge association list: replace the record of an
existing key in place, else append — `nx.Graph` keeps exactly one
attribute record per unordered pair and overwrites it on repeated
`add_edge`. -/
def insertEdge : List (Pair × EdgeRecord) → Pair → EdgeRecord → List (Pair × EdgeRecord)
  | [], k, v => [(k, v)]
  | (k', v') :: rest, k, v =>
    if k' = k then (k, v) :: rest else (k', v') :: insertEdge rest k v

/-- Add a node if not already present (`nx.Graph` node union semantics). -/
def addNode (ns : List String) (a : String) : List String :=
  if a ∈ ns then ns else ns ++ [a]

/-- The `nx.Graph` built by the Visualization page: its node list and one
edge record per canonical unordered pair. -/
structure Graph where
  nodes : List String
  edges : List (Pair × EdgeRecord)
deriving DecidableEq, Repr

/-- `G.add_edge(a, b, weight=distance, label=...)`: adds both endpoints
as nodes and upserts the edge record for the unordered pair `{a, b}`. -/
def addEdge (g : Graph) (a b : String) (v : EdgeRecord) : Graph :=
  { nodes := addNode (addNode g.nodes a) b
    edges := insertEdge g.edges (pairKey a b) v }

/-- The per-row body of the graph build loop (ppi_basedata.py
lines 109-110): `score = row.get("combined_score", 1)` and
`distance = 1.0 / score if score > 0 else 1.0`. -/
def edgeRecordOfRow (r : Row) : EdgeRecord :=
  let score := r.score.getD 1
  { distance := if 0 < score then 1 / score else 1
    score := score }

/-- One iteration of the build loop (ppi_basedata.py lines 107-111). -/
def buildStep (g : Graph) (r : Row) : Graph :=
  addEdge g r.proteinA r.proteinB (edgeRecordOfRow r)

/-- The graph build loop `for _, row in filtered_df.iterrows(): ...`
(ppi_basedata.py lines 106-111), starting from the empty `nx.Graph()`. -/
def buildGraph (rows : List Row) : Graph :=
  rows.foldl buildStep ⟨[], []⟩

/-- Association-list lookup of an edge record by its canonical key. -/
def lookupEdge : List (Pair × EdgeRecord) → Pair → Option EdgeRecord
  | [], _ => none
  | (k', v) :: rest, k => if k' = k then some v else lookupEdge rest k

/-- The canonical keys of the stored edges. -/
def edgeKeys (es : List (Pair × EdgeRecord)) : List Pair :=
  es.map Prod.fst

/-- The last row of `rows` whose unordered endpoint pair has canonical
key `k`, if any — the row whose `add_edge` call is the last to write the
record of that edge. -/
def lastMatch : List Row → Pair → Option Row
  | [], _ => none
  | r :: rest, k =>
    match lastMatch rest k with
    | some r' => some r'
    | none => if pairKey r.proteinA r.proteinB = k then some r else none

/-- The edge weight stored by the ppi_dataapp.py build loop (line 119):
`G.add_edge(row["Protein_A"], row["Protein_B"], weight=row.get("combined_score", 1))`
— the row's raw score, a missing score defaulting to `1`; unlike the
ppi_basedata loop there is no `1/score` computation and no fallback for
non-positive scores. -/
def appWeight (r : Row) : ℚ :=
  r.score.getD 1

/-- Upsert into the weight-only edge association list of the
ppi_dataapp graph (same `nx.Graph` overwrite semantics as
`insertEdge`). -/
def insertEdgeW : List (Pair × ℚ) → Pair → ℚ → List (Pair × ℚ)
  | [], k, v => [(k, v)]
  | (k', v') :: rest, k, v =>
    if k' = k then (k, v) :: rest else (k', v') :: insertEdgeW rest k v

/-- The `nx.Graph` built by the ppi_dataapp.py Visualization page: its
node list and the stored weight per canonical unordered pair. -/
structure GraphW where
  nodes : List String
  edges : List (Pair × ℚ)
deriving DecidableEq, Repr

/-- `G.add_edge(a, b, weight=w)` of the ppi_dataapp loop. -/
def addEdgeW (g : GraphW) (a b : String) (w : ℚ) : GraphW :=
  { nodes := addNode (addNode g.nodes a) b
    edges := insertEdgeW g.edges (pairKey a b) w }

/-- The ppi_dataapp.py graph build loop (lines 117-119), starting from
the empty `nx.Graph()`. -/
def buildGraphApp (rows : List Row) : GraphW :=
  rows.foldl (fun g r => addEdgeW g r.proteinA r.proteinB (appWeight r)) ⟨[], []⟩

/-- Association-list lookup of a stored weight by its canonical key. -/
def lookupEdgeW : List (Pair × ℚ) → Pair → Option ℚ
  | [], _ => none
  | (k', v) :: rest, k => if k' = k then some v else lookupEdgeW rest k

/-- A 2D node placement, as returned by `nx.spring_layout`. -/
abbrev Layout := List (String × ℚ × ℚ)

/-- The layout call of the Visualization page,
`pos = nx.spring_layout(G, weight='weight', seed=42)`
(ppi_basedata.py line 113; ppi_dataapp.py line 138 likewise passes
`seed=42`).  `spring_layout` itself is the external networkx routine —
a function of the graph and the seed — abstracted here as the argument
`spring_layout`; the call site always passes the fixed seed `42`. -/
def layoutCall (spring_layout : Graph → ℕ → Layout) (g : Graph) : Layout :=
  spring_layout g 42

/-- The whole Visualization pipeline position computation for one request:
filter the cached dataframe by the query, build the graph, lay it out
with the fixed seed. -/
def layoutPipeline (spring_layout : Graph → ℕ → Layout)
    (df : List Row) (singleRaw multiRaw : String) : Layout :=
  layoutCall spring_layout (buildGraph (dataPage df singleRaw multiRaw))

/-- The bar color of one score (ppi_basedata.py lines 91-94):
`"#ff69b4" if s >= 0.9 else "#3498db" if s >= 0.7 else "#9b59b6"`. -/
def scoreColor (s : ℚ) : String :=
  if 9 / 10 ≤ s then "#ff69b4" else if 7 / 10 ≤ s then "#3498db" else "#9b59b6"

/-- The high-confidence bucket color (score ≥ 0.9). -/
def highColor : String := "#ff69b4"

/-- The medium-confidence bucket color (0.7 ≤ score < 0.9). -/
def mediumColor : String := "#3498db"

/-- The low-confidence bucket color (score < 0.7). -/
def lowColor : String := "#9b59b6"

/-! ### Helper lemmas about the edge association list and the build loop -/

lemma lookupEdge_insertEdge_self (es : List (Pair × EdgeRecord)) (k : Pair)
    (v : EdgeRecord) : lookupEdge (insertEdge es k v) k = some v := by
  induction es with
  | nil => simp [insertEdge, lookupEdge]
  | cons hd tl ih =>
    obtain ⟨k', v'⟩ := hd
    by_cases h : k' = k
    · simp [insertEdge, h, lookupEdge]
    · simp [insertEdge, h, lookupEdge, ih]

lemma lookupEdgeW_insertEdgeW_self (es : List (Pair × ℚ)) (k : Pair)
    (v : ℚ) : lookupEdgeW (insertEdgeW es k v) k = some v := by
  induction es with
  | nil => simp [insertEdgeW, lookupEdgeW]
  | cons hd tl ih =>
    obtain ⟨k', v'⟩ := hd
    by_cases h : k' = k
    · simp [insertEdgeW, h, lookupEdgeW]
    · simp [insertEdgeW, h, lookupEdgeW, ih]

lemma lookupEdge_insertEdge_ne (es : List (Pair × EdgeRecord)) (k k' : Pair)
    (v : EdgeRecord) (h : k' ≠ k) :
    lookupEdge (insertEdge es k v) k' = lookupEdge es k' := by
  induction es with
  | nil => simp [insertEdge, lookupEdge, Ne.symm h]
  | cons hd tl ih =>
    obtain ⟨k₀, v₀⟩ := hd
    by_cases h0 : k₀ = k
    · subst h0
      simp [insertEdge, lookupEdge, Ne.symm h]
    · simp only [insertEdge, h0, if_false, lookupEdge]
      by_cases h1 : k₀ = k'
      · simp [h1]
      · simp [h1, ih]

lemma edgeKeys_insertEdge (es : List (Pair × EdgeRecord)) (k : Pair)
    (v : EdgeRecord) :
    edgeKeys (insertEdge es k v) =
      if k ∈ edgeKeys es then edgeKeys es else edgeKeys es ++ [k] := by
  induction es with
  | nil => simp [insertEdge, edgeKeys]
  | cons hd tl ih =>
    obtain ⟨k₀, v₀⟩ := hd
    by_cases h0 : k₀ = k
    · subst h0
      simp [insertEdge, edgeKeys]
    · have h0' : k ≠ k₀ := Ne.symm h0
      simp only [insertEdge, h0, if_false, edgeKeys, List.map_cons] at ih ⊢
      rw [ih]
      by_cases h1 : k ∈ List.map Prod.fst tl
      · simp [h1, h0']
      · simp [h1, h0']

lemma nodup_edgeKeys_insertEdge (es : List (Pair × EdgeRecord)) (k : Pair)
    (v : EdgeRecord) (h : (edgeKeys es).Nodup) :
    (edgeKeys (insertEdge es k v)).Nodup := by
  rw [edgeKeys_insertEdge]
  by_cases hk : k ∈ edgeKeys es
  · simpa [hk] using h
  · simp [hk, List.nodup_append, h]

lemma buildFold_lookup (rows : List Row) : ∀ (g : Graph) (k : Pair),
    lookupEdge ((rows.foldl buildStep g).edges) k =
      match lastMatch rows k with
      | some r => some (edgeRecordOfRow r)
      | none => lookupEdge g.edges k := by
  induction rows with
  | nil => intro g k; simp [lastMatch]
  | cons r rest ih =>
    intro g k
    rw [List.foldl_cons, ih]
    cases hl : lastMatch rest k with
    | some r' => simp [lastMatch, hl]
    | none =>
      simp only [lastMatch, hl]
      by_cases hk : pairKey r.proteinA r.proteinB = k
      · simp [hk, buildStep, addEdge, lookupEdge_insertEdge_self]
      · simp [hk, buildStep, addEdge,
          lookupEdge_insertEdge_ne _ _ _ _ (fun hh => hk hh.symm)]

lemma buildFold_nodup (rows : List Row) : ∀ g : Graph,
    (edgeKeys g.edges).Nodup →
    (edgeKeys ((rows.foldl buildStep g).edges)).Nodup := by
  induction rows with
  | nil => intro g h; simpa using h
  | cons r rest ih =>
    intro g h
    rw [List.foldl_cons]
    exact ih _ (nodup_edgeKeys_insertEdge _ _ _ h)

lemma buildFold_keys_subset (rows : List Row) : ∀ (g : Graph) (p : Pair),
    p ∈ edgeKeys ((rows.foldl buildStep g).edges) →
    p ∈ edgeKeys g.edges ∨ ∃ r ∈ rows, p = pairKey r.proteinA r.proteinB := by
  induction rows with
  | nil => intro g p hp; exact Or.inl hp
  | cons r rest ih =>
    intro g p hp
    rw [List.foldl_cons] at hp
    rcases ih _ _ hp with h0 | ⟨r', hr', rfl⟩
    · rw [buildStep, addEdge] at h0
      simp only [edgeKeys_insertEdge] at h0
      by_cases hk : pairKey r.proteinA r.proteinB ∈ edgeKeys g.edges
      · simp only [hk, if_true] at h0
        exact Or.inl h0
      · simp only [hk, if_false, List.mem_append, List.mem_singleton] at h0
        rcases h0 with h0 | h0
        · exact Or.inl h0
        · exact Or.inr ⟨r, List.mem_cons_self r rest, h0⟩
    · exact Or.inr ⟨r', List.mem_cons_of_mem r hr', rfl⟩

/-! ### The claims -/

/-- Claim C1: for every dataset `D` and every non-empty protein set `S`,
the multi-protein filter keeps exactly the rows of `D` whose `Protein_A`
or `Protein_B` is in `S`, each row unmodified, and the result is a
subsequence of `D` (original row order preserved). -/
theorem claim_C1 (D : List Row) (S : List String) (_hS : S ≠ []) :
    (multiFilter D S).Sublist D ∧
    ∀ r : Row, r ∈ multiFilter D S ↔
      r ∈ D ∧ (r.proteinA ∈ S ∨ r.proteinB ∈ S) := by
  refine ⟨List.filter_sublist _, fun r => ?_⟩
  simp [multiFilter, List.mem_filter]

/-- Witness for claim C1 at a concrete dataset and protein set. -/
theorem claim_C1_witness :
    (["P1"] : List String) ≠ [] ∧
    ((multiFilter [⟨"P1", "X", some 1⟩, ⟨"Y", "Z", some 1⟩] ["P1"]).Sublist
        [⟨"P1", "X", some 1⟩, ⟨"Y", "Z", some 1⟩] ∧
      ∀ r : Row, r ∈ multiFilter [⟨"P1", "X", some 1⟩, ⟨"Y", "Z", some 1⟩] ["P1"] ↔
        r ∈ [(⟨"P1", "X", some 1⟩ : Row), ⟨"Y", "Z", some 1⟩] ∧
          (r.proteinA ∈ (["P1"] : List String) ∨ r.proteinB ∈ (["P1"] : List String))) :=
  ⟨by decide, claim_C1 _ _ (by decide)⟩

/-- Claim C2: when the stripped multi-protein input is non-empty, the
final filter result is the multi-protein filter applied to the full
dataset, whatever the single-protein input was — the multi-protein query
supersedes the single-protein query. -/
theorem claim_C2 (D : List Row) (singleRaw multiRaw : String)
    (h : pyStrip multiRaw ≠ "") :
    dataPage D singleRaw multiRaw =
      multiFilter D (parseProteins (pyStrip multiRaw)) ∧
    ∀ singleRaw' : String,
      dataPage D singleRaw multiRaw = dataPage D singleRaw' multiRaw := by
  constructor
  · simp [dataPage, h]
  · intro s'
    simp [dataPage, h]

/-- Witness for claim C2 at a concrete dataset and inputs. -/
theorem claim_C2_witness :
    pyStrip "P1,P2" ≠ "" ∧
    (dataPage [⟨"P9", "X", some 1⟩] "P9" "P1,P2" =
        multiFilter [⟨"P9", "X", some 1⟩] (parseProteins (pyStrip "P1,P2")) ∧
      ∀ singleRaw' : String,
        dataPage [⟨"P9", "X", some 1⟩] "P9" "P1,P2" =
          dataPage [⟨"P9", "X", some 1⟩] singleRaw' "P1,P2") :=
  ⟨by decide, claim_C2 _ _ _ (by decide)⟩

/-- Claim C8: when fetching or parsing the dataset fails, `load_data`
catches the exception and returns the empty dataframe together with the
reported error message, and the downstream filter pipeline run on that
empty dataset yields an empty (but valid) result rather than failing. -/
theorem claim_C8 (e : String) :
    load_data (Except.error e) = (emptyFrame, some ("❌ Error loading data: " ++ e)) ∧
    (load_data (Except.error e)).1.rows = [] ∧
    ∀ singleRaw multiRaw : String,
      dataPage (load_data (Except.error e)).1.rows singleRaw multiRaw = [] := by
  refine ⟨rfl, rfl, fun s m => ?_⟩
  simp [load_data, emptyFrame, dataPage, singleFilter, multiFilter]

/-- Claim C10: a single- or multi-protein input that strips to the empty
string is treated as no query at all: the corresponding filter stage is
skipped (never a search for the empty-string protein), and when both
inputs strip to empty the full dataset is returned unchanged. -/
theorem claim_C10 (df : List Row) (singleRaw multiRaw : String) :
    (pyStrip singleRaw = "" → pyStrip multiRaw = "" →
      dataPage df singleRaw multiRaw = df) ∧
    (pyStrip singleRaw = "" →
      dataPage df singleRaw multiRaw =
        if pyStrip multiRaw ≠ "" then
          multiFilter df (parseProteins (pyStrip multiRaw))
        else df) ∧
    (pyStrip multiRaw = "" →
      dataPage df singleRaw multiRaw =
        if pyStrip singleRaw ≠ "" then singleFilter df (pyStrip singleRaw)
        else df) := by
  refine ⟨fun hs hm => ?_, fun hs => ?_, fun hm => ?_⟩
  · simp [dataPage, hs, hm]
  · simp [dataPage, hs]
  · simp [dataPage, hm]

/-- Witness for claim C10: whitespace-only inputs leave a concrete
dataset unchanged. -/
theorem claim_C10_witness :
    dataPage [⟨"P1", "P2", some 1⟩] "   " " " = [⟨"P1", "P2", some 1⟩] :=
  (claim_C10 [⟨"P1", "P2", some 1⟩] "   " " ").1 (by decide) (by decide)

/-- Counterexample to claim C3: entries of the multi-protein input that
are empty after trimming are NOT dropped — parsing `"P1,,P2"` yields the
list `["P1", "", "P2"]`, the empty entry included, and on a dataset with
a row whose `Protein_A` is the empty string the filter keeps that row
even though neither of its endpoints is in `{P1, P2}`. -/
theorem claim_C3_counterexample :
    parseProteins "P1,,P2" = ["P1", "", "P2"] ∧
    dataPage [⟨"", "X", some 1⟩] "" "P1,,P2" = [⟨"", "X", some 1⟩] ∧
    (⟨"", "X", some 1⟩ : Row).proteinA ∉ (["P1", "P2"] : List String) ∧
    (⟨"", "X", some 1⟩ : Row).proteinB ∉ (["P1", "P2"] : List String) := by
  decide

/-- Claim C3 as amended: each entry of the comma-separated multi-protein
input is trimmed of surrounding whitespace before matching, but entries
that are empty after trimming are kept in the query list — `"P1,,P2"` and
`"P1, ,P2"` both query the list `["P1", "", "P2"]` — and a kept entry
(the empty one included) matches exactly the rows having it as an
endpoint. -/
theorem claim_C3_amended :
    parseProteins "P1,,P2" = ["P1", "", "P2"] ∧
    parseProteins "P1, ,P2" = ["P1", "", "P2"] ∧
    parseProteins " P1 ,  P2\t" = ["P1", "P2"] ∧
    ∀ (df : List Row) (S : List String) (r : Row),
      r ∈ multiFilter df S ↔ r ∈ df ∧ (r.proteinA ∈ S ∨ r.proteinB ∈ S) := by
  refine ⟨by decide, by decide, by decide, fun df S r => ?_⟩
  simp [multiFilter, List.mem_filter]

/-- Counterexample to claim C4: the claim also covers the
ppi_dataapp.py build loop (lines 117-119), but that loop stores the raw
score as the edge weight — a row with score `0` yields the stored weight
`0`, not the claimed fallback `1.0`, and a row with score `1/2` yields
the stored weight `1/2`, not `1/(1/2) = 2`. -/
theorem claim_C4_counterexample :
    lookupEdgeW (buildGraphApp [⟨"P1", "P2", some 0⟩]).edges
        (pairKey "P1" "P2") = some 0 ∧
    (0 : ℚ) ≠ 1 ∧
    lookupEdgeW (buildGraphApp [⟨"P3", "P4", some (1/2)⟩]).edges
        (pairKey "P3" "P4") = some (1/2) ∧
    (1/2 : ℚ) ≠ 1 / (1/2) := by
  have h1 : strLe "P1" "P2" = true := by decide
  have h3 : strLe "P3" "P4" = true := by decide
  refine ⟨?_, by norm_num, ?_, by norm_num⟩
  · simp [buildGraphApp, addEdgeW, insertEdgeW, appWeight, lookupEdgeW,
      pairKey, h1]
  · simp [buildGraphApp, addEdgeW, insertEdgeW, appWeight, lookupEdgeW,
      pairKey, h3]

/-- Claim C4 as amended: the ppi_basedata build loop stores for a row's
unordered protein pair a record with `distance = 1 / score` when the
row's score is strictly positive and `distance = 1` when the score is
zero, negative or missing (a missing score defaults to `1`, so its
distance is `1/1 = 1`), never producing a division by zero; the
ppi_dataapp build loop instead stores the row's raw score (missing
defaulting to `1`) as the weight of the pair's edge, with no `1/score`
computation and no fallback for non-positive scores. -/
theorem claim_C4 (g : Graph) (r : Row) :
    lookupEdge (addEdge g r.proteinA r.proteinB (edgeRecordOfRow r)).edges
        (pairKey r.proteinA r.proteinB) = some (edgeRecordOfRow r) ∧
    (∀ s : ℚ, r.score = some s → 0 < s →
      (edgeRecordOfRow r).distance = 1 / s) ∧
    (∀ s : ℚ, r.score = some s → s ≤ 0 → (edgeRecordOfRow r).distance = 1) ∧
    (r.score = none → (edgeRecordOfRow r).distance = 1) ∧
    (∀ gw : GraphW,
      lookupEdgeW (addEdgeW gw r.proteinA r.proteinB (appWeight r)).edges
        (pairKey r.proteinA r.proteinB) = some (appWeight r)) ∧
    (∀ s : ℚ, r.score = some s → appWeight r = s) ∧
    (r.score = none → appWeight r = 1) := by
  refine ⟨?_, ?_, ?_, ?_, ?_, ?_, ?_⟩
  · simp [addEdge, lookupEdge_insertEdge_self]
  · intro s hs h
    simp [edgeRecordOfRow, hs, h]
  · intro s hs h
    simp [edgeRecordOfRow, hs, not_lt.mpr h]
  · intro h
    norm_num [edgeRecordOfRow, h]
  · intro gw
    simp [addEdgeW, lookupEdgeW_insertEdgeW_self]
  · intro s hs
    simp [appWeight, hs]
  · intro h
    simp [appWeight, h]

/-- Witness for the amended claim C4 at a concrete row with score `0`:
the ppi_basedata record falls back to distance `1` while the
ppi_dataapp loop stores the raw weight `0`. -/
theorem claim_C4_witness :
    (edgeRecordOfRow ⟨"P1", "P2", some 0⟩).distance = 1 ∧
    appWeight (⟨"P1", "P2", some 0⟩ : Row) = 0 ∧
    lookupEdge (addEdge ⟨[], []⟩ "P1" "P2"
        (edgeRecordOfRow ⟨"P1", "P2", some 0⟩)).edges
      (pairKey "P1" "P2") = some (edgeRecordOfRow ⟨"P1", "P2", some 0⟩) :=
  ⟨(claim_C4 ⟨[], []⟩ ⟨"P1", "P2", some 0⟩).2.2.1 0 rfl le_rfl,
   (claim_C4 ⟨[], []⟩ ⟨"P1", "P2", some 0⟩).2.2.2.2.2.1 0 rfl,
   (claim_C4 ⟨[], []⟩ ⟨"P1", "P2", some 0⟩).1⟩

/-- Claim C5: the built graph stores at most one edge record per
unordered pair (the stored keys are pairwise distinct), the record of
each key is the one of the last processed row with that pair, and the
concrete dataset `(P1,P2,0.5)` then `(P1,P2,0.9)` yields exactly one
edge for `(P1,P2)` whose distance `10/9` derives from the score `0.9`. -/
theorem claim_C5 (rows : List Row) :
    (edgeKeys (buildGraph rows).edges).Nodup ∧
    (∀ k : Pair, lookupEdge (buildGraph rows).edges k =
      Option.map edgeRecordOfRow (lastMatch rows k)) ∧
    buildGraph [⟨"P1", "P2", some (1/2)⟩, ⟨"P1", "P2", some (9/10)⟩] =
      ⟨["P1", "P2"], [(("P1", "P2"), ⟨10/9, 9/10⟩)]⟩ := by
  refine ⟨buildFold_nodup rows ⟨[], []⟩ (by simp [edgeKeys]), fun k => ?_, ?_⟩
  · rw [buildGraph, buildFold_lookup]
    cases lastMatch rows k <;> simp [lookupEdge]
  · have h1 : strLe "P1" "P2" = true := by decide
    norm_num [buildGraph, buildStep, addEdge, addNode, insertEdge, pairKey,
      edgeRecordOfRow, h1]
    decide

/-- Claim C6: the Visualization pipeline is a pure function of the
dataset and the query, and its layout call always passes the fixed seed
`42` to `spring_layout` (both call sites do), so for any deterministic
layout routine two runs of the same query produce the identical layout.
The networkx `spring_layout` routine itself is external to the
repository and is abstracted as the function argument `spring_layout`. -/
theorem claim_C6 (spring_layout : Graph → ℕ → Layout) (df : List Row)
    (singleRaw multiRaw : String) :
    layoutPipeline spring_layout df singleRaw multiRaw =
      layoutPipeline spring_layout df singleRaw multiRaw ∧
    layoutPipeline spring_layout df singleRaw multiRaw =
      spring_layout (buildGraph (dataPage df singleRaw multiRaw)) 42 ∧
    ∀ g : Graph, layoutCall spring_layout g = spring_layout g 42 :=
  ⟨rfl, rfl, fun _ => rfl⟩

/-- Claim C7: the score-to-color assignment uses three buckets with the
lower bound of each bucket inclusive — `#ff69b4` (high) exactly when
`score ≥ 0.9`, `#3498db` (medium) exactly when `0.7 ≤ score < 0.9`, and
`#9b59b6` (low) exactly when `score < 0.7`; in particular `0.9 → high`,
`0.8999 → medium`, `0.7 → medium`, `0.6999 → low`. -/
theorem claim_C7 (s : ℚ) :
    (scoreColor s = highColor ↔ 9/10 ≤ s) ∧
    (scoreColor s = mediumColor ↔ 7/10 ≤ s ∧ s < 9/10) ∧
    (scoreColor s = lowColor ↔ s < 7/10) ∧
    scoreColor (9/10) = highColor ∧
    scoreColor (8999/10000) = mediumColor ∧
    scoreColor (7/10) = mediumColor ∧
    scoreColor (6999/10000) = lowColor := by
  have hAB : ("#ff69b4" : String) ≠ "#3498db" := by decide
  have hAC : ("#ff69b4" : String) ≠ "#9b59b6" := by decide
  have hBC : ("#3498db" : String) ≠ "#9b59b6" := by decide
  refine ⟨?_, ?_, ?_, by norm_num [scoreColor, highColor],
    by norm_num [scoreColor, mediumColor], by norm_num [scoreColor, mediumColor],
    by norm_num [scoreColor, lowColor]⟩ <;>
  · by_cases h1 : (9:ℚ)/10 ≤ s <;> by_cases h2 : (7:ℚ)/10 ≤ s <;>
      norm_num [scoreColor, highColor, mediumColor, lowColor, h1, h2,
        hAB, hAC, hBC, Ne.symm hAB, Ne.symm hAC, Ne.symm hBC] <;>
      linarith

/-- Counterexample to claim C9: a row whose two endpoints are equal does
produce a self-loop edge — `nx.Graph.add_edge(a, a)` stores an edge whose
key pairs the identifier with itself. -/
theorem claim_C9_counterexample :
    edgeKeys (buildGraph [⟨"P1", "P1", some (1/2)⟩]).edges = [("P1", "P1")] ∧
    (("P1", "P1") : Pair).1 = (("P1", "P1") : Pair).2 := by
  constructor
  · have h1 : strLe "P1" "P1" = true := by decide
    norm_num [buildGraph, buildStep, addEdge, addNode, insertEdge, pairKey,
      edgeKeys, edgeRecordOfRow, h1]
  · rfl

/-- Claim C9 as amended: every edge key of the built graph pairs the two
endpoints of some processed row, so when every input row has
`proteinA ≠ proteinB` every edge connects two distinct node identifiers;
a row with equal endpoints, however, produces a self-loop edge. -/
theorem claim_C9_amended (rows : List Row)
    (h : ∀ r ∈ rows, r.proteinA ≠ r.proteinB) :
    ∀ p ∈ edgeKeys (buildGraph rows).edges, p.1 ≠ p.2 := by
  intro p hp
  rcases buildFold_keys_subset rows ⟨[], []⟩ p hp with h0 | ⟨r, hr, rfl⟩
  · simp [edgeKeys] at h0
  · have hab := h r hr
    unfold pairKey
    split
    · simpa using hab
    · simpa using Ne.symm hab

/-- Witness for the amended claim C9 at a concrete self-loop-free
dataset. -/
theorem claim_C9_amended_witness :
    (("P1", "P2") : Pair).1 ≠ (("P1", "P2") : Pair).2 :=
  claim_C9_amended [⟨"P1", "P2", some 1⟩] (by decide) ("P1", "P2") (by decide)

end PPI
